import Mathlib

/-!
A shallow embedding of the globros scoring engine
(`globros-scoring-app/scoring_engine.py` together with the configuration in
`globros-scoring-app/config.py`), and proofs about its behaviour.

Python machine floats are idealised as real numbers; Python exceptions are
modelled by an `Except` result type.  A per-player score slot is
`Option RawVal`: `none` models Python `None` (a non-participant) and
`RawVal.mal` models a present but malformed (non-numeric) value such as a
string, which `float(...)` and `numpy` conversion reject.
-/

namespace Globros

/-- The kinds of Python exceptions the embedded code can raise. -/
inductive PyErr where
  | valueError
  | typeError
  | indexError
deriving DecidableEq, Repr

/-- A present raw-score value: either a number (Python int/float, idealised as
a real), or a malformed non-numeric value (e.g. a string). -/
inductive RawVal where
  | num (x : ℝ)
  | mal

/-- `config.PLAYERS`. -/
def PLAYERS : List String := ["Anthony", "Cole", "Joseph", "Katherine"]

/-- One entry of the `config.GAMES` registry: its kind and its weight.
The weight is stored as the exact rational value of the Python literal. -/
structure GameInfo where
  type : String
  weight : ℚ
deriving DecidableEq

/-- `config.GAMES`, in the dictionary's insertion order. -/
def GAMES : List (String × GameInfo) :=
  [("Worldle", ⟨"standard", 1.2⟩),
   ("Globle", ⟨"standard", 0.8⟩),
   ("Countryle", ⟨"standard", 0.8⟩),
   ("Travle", ⟨"standard", 0.9⟩),
   ("Geogrid", ⟨"standard", 0.8⟩),
   ("NoBordle", ⟨"special", 1.1⟩),
   ("ImpossiBordle", ⟨"special", 0.9⟩)]

/-- `scoring_engine.calculate_special_score`.  `correct` is the Python
`correct` flag and `guesses_or_distance` the numeric second argument; the
`game_type` string is unused by the source. -/
noncomputable def calculate_special_score (correct : Bool) (guesses_or_distance : ℝ)
    (_game_type : String) : ℝ :=
  if correct = true ∧ guesses_or_distance ≤ 6 then
    guesses_or_distance
  else
    8 * (1 + Real.sqrt ((if correct = true then 0 else guesses_or_distance) / 12500))

/-- Python `float(score)` on a present raw value: a number converts to itself,
a malformed value raises `ValueError`. -/
def pyFloat : RawVal → Except PyErr ℝ
  | .num x => .ok x
  | .mal => .error .valueError

/-- The Geogrid rescale `score / 100.0` applied to a present raw value:
division of a non-numeric value raises `TypeError`. -/
noncomputable def geogridDiv100 : RawVal → Except PyErr RawVal
  | .num x => .ok (.num (x / 100))
  | .mal => .error .typeError

/-- `np.array(participating_scores, dtype=float)`: converts every entry to a
float, raising `ValueError` if any entry is non-numeric. -/
def npArrayFloat (l : List RawVal) : Except PyErr (List ℝ) :=
  l.mapM pyFloat

/-- `np.median` on a non-empty list: sort ascending, take the middle element
for an odd length and the average of the two middle elements for an even
length. -/
noncomputable def npMedian (l : List ℝ) : ℝ :=
  let s := l.insertionSort (· ≤ ·)
  if l.length % 2 = 1 then s.getD (l.length / 2) 0
  else (s.getD (l.length / 2 - 1) 0 + s.getD (l.length / 2) 0) / 2

/-- The body of the per-player `try` block computing `actual_score`:
`score / 100.0 if game == "Geogrid" else float(score)`. -/
noncomputable def tryActual (game : String) (v : RawVal) : Except PyErr ℝ :=
  if game = "Geogrid" then
    match v with
    | .num x => .ok (x / 100)
    | .mal => .error .typeError
  else pyFloat v

/-- The per-player normalization arithmetic of `calculate_normalized_score`:
the raw deviation itself when the median is exactly zero, otherwise
`(v − median) / |median| ^ 0.4`. -/
noncomputable def normFormula (median_score v : ℝ) : ℝ :=
  if median_score = 0 then v
  else (v - median_score) / |median_score| ^ (0.4 : ℝ)

/-- `scoring_engine.calculate_normalized_score`.  The result is `Except`
because a malformed participating value makes the Geogrid rescale or the
`np.array` conversion raise before the per-player `try`/`except` is reached. -/
noncomputable def calculate_normalized_score (raw_scores : List (Option RawVal))
    (game : String) : Except PyErr (List (Option ℝ)) :=
  let participating_scores := raw_scores.filterMap id
  if participating_scores.isEmpty then
    .ok (raw_scores.map (fun score => if score.isSome then some (0 : ℝ) else none))
  else
    match (if game = "Geogrid" then participating_scores.mapM geogridDiv100
           else .ok participating_scores) with
    | .error e => .error e
    | .ok rescaled =>
      match npArrayFloat rescaled with
      | .error e => .error e
      | .ok scores_array =>
        let median_score := npMedian scores_array
        .ok (raw_scores.map (fun score =>
          match score with
          | none => none
          | some v =>
            match tryActual game v with
            | .error _ => some (0 : ℝ)
            | .ok actual_score => some (normFormula median_score actual_score)))

/-- `scoring_engine.calculate_weighted_scores`. -/
noncomputable def calculate_weighted_scores (normalized_scores : List (Option ℝ))
    (game : String) : List (Option ℝ) :=
  let weight : ℝ := (((GAMES.lookup game).map GameInfo.weight).getD 0 : ℚ)
  normalized_scores.map (fun score => score.map (· * weight))

/-- The tables accumulated by the per-game loop of `calculate_daily_results`,
each in the iteration (dictionary-insertion) order, plus the running
`total_scores`. -/
structure DayTables where
  raw_scores : List (String × List (Option RawVal))
  normalized_unweighted : List (String × List (Option ℝ))
  normalized_weighted : List (String × List (Option ℝ))
  total_scores : List ℝ

/-- The per-player accumulation `total_scores[i] += weighted_score` for the
present entries of one game's weighted scores. -/
def addWeighted : List ℝ → List (Option ℝ) → List ℝ
  | ts, [] => ts
  | [], _ :: _ => []
  | t :: ts, w :: ws =>
    (match w with
     | some x => t + x
     | none => t) :: addWeighted ts ws

/-- The `for game, raw_scores in scores_data.items()` loop of
`calculate_daily_results`: unknown games are skipped, known games are
normalised, weighted and folded into the running totals. -/
noncomputable def processGames :
    List (String × List (Option RawVal)) → List ℝ → Except PyErr DayTables
  | [], totals => .ok ⟨[], [], [], totals⟩
  | (game, raw_scores) :: rest, totals =>
    if (GAMES.lookup game).isSome then
      match calculate_normalized_score raw_scores game with
      | .error e => .error e
      | .ok normalized_unweighted =>
        let weighted_scores := calculate_weighted_scores normalized_unweighted game
        match processGames rest (addWeighted totals weighted_scores) with
        | .error e => .error e
        | .ok t =>
          .ok ⟨(game, raw_scores) :: t.raw_scores,
               (game, normalized_unweighted) :: t.normalized_unweighted,
               (game, weighted_scores) :: t.normalized_weighted,
               t.total_scores⟩
    else processGames rest totals

/-- The participating-player filter of `calculate_daily_results`: a player is
kept iff they have a present raw score in some stored game, paired with their
total. -/
noncomputable def participatingTotals (raw_tables : List (String × List (Option RawVal)))
    (totals : List ℝ) : List (String × ℝ) :=
  PLAYERS.enum.filterMap (fun ip =>
    if raw_tables.any (fun g => (g.2.getD ip.1 none).isSome) then
      some (ip.2, totals.getD ip.1 0)
    else none)

/-- The result record of `calculate_daily_results`. -/
structure DailyResults where
  players : List String
  raw_scores : List (String × List (Option RawVal))
  normalized_unweighted : List (String × List (Option ℝ))
  normalized_weighted : List (String × List (Option ℝ))
  total_scores : List ℝ
  rankings : List (String × ℝ)
  winner : String
  winners : List String
  is_tie : Bool

/-- `scoring_engine.calculate_daily_results`.  The final `winners[0]` raises
`IndexError` when nobody participated, which the embedding reports as
`.error .indexError`. -/
noncomputable def calculate_daily_results (scores_data : List (String × List (Option RawVal))) :
    Except PyErr DailyResults :=
  match processGames scores_data (List.replicate PLAYERS.length 0) with
  | .error e => .error e
  | .ok t =>
    let participating_player_totals :=
      (participatingTotals t.raw_scores t.total_scores).insertionSort (fun a b => a.2 ≤ b.2)
    let winners :=
      match participating_player_totals.head? with
      | none => ([] : List String)
      | some lowest =>
        (participating_player_totals.filter (fun pt => pt.2 = lowest.2)).map Prod.fst
    match winners with
    | [] => .error .indexError
    | w :: _ =>
      .ok { players := PLAYERS
            raw_scores := t.raw_scores
            normalized_unweighted := t.normalized_unweighted
            normalized_weighted := t.normalized_weighted
            total_scores := t.total_scores
            rankings := participating_player_totals
            winner := w
            winners := winners
            is_tie := winners.length != 1 }

/-- A present Python value as submitted to `validate_score_input`: an int, a
float (idealised as an exact rational), or a string. -/
inductive PyVal where
  | int (n : ℤ)
  | float (x : ℚ)
  | str (s : String)
deriving DecidableEq

/-- Python `isinstance(score, (int, float))`. -/
def PyVal.isNumber : PyVal → Bool
  | .int _ => true
  | .float _ => true
  | .str _ => false

/-- Python `isinstance(score, int)`. -/
def PyVal.isInt : PyVal → Bool
  | .int _ => true
  | _ => false

/-- The numeric value used by the comparisons in `validate_score_input`; the
string case is never consulted because `not isinstance(...)` short-circuits. -/
def PyVal.toRat : PyVal → ℚ
  | .int n => n
  | .float x => x
  | .str _ => 0

/-- `scoring_engine.validate_score_input`. -/
def validate_score_input (game : String) (score : PyVal) : Bool × String :=
  match GAMES.lookup game with
  | none => (false, "Unknown game: " ++ game)
  | some info =>
    if info.type = "special" then (true, "")
    else if game = "Worldle" ∨ game = "Globle" ∨ game = "Countryle" then
      if !score.isNumber || score.toRat < 1 || score.toRat > 100 then
        (false, game ++ " score must be between 1 and 100")
      else (true, "")
    else if game = "Travle" then
      if !score.isNumber || score.toRat < -1 || score.toRat > 100 then
        (false, game ++ " score must be between -1 and 100")
      else (true, "")
    else if game = "Geogrid" then
      if !score.isInt || score.toRat < 0 || score.toRat > 900 then
        (false, game ++ " score must be an integer between 0 and 900")
      else (true, "")
    else (true, "")

/-- Claim C4: the special-game score function returns the measurement itself
when the answer was correct in at most 6 guesses, and otherwise
`8 * (1 + sqrt(distance / 12500))` with `distance` the measurement on failure
and `0` on success; in particular `(True, 6) ↦ 6`, `(True, 7) ↦ 8.0` and
`(False, 12500) ↦ 16.0`. -/
theorem special_score_spec :
    (∀ (c : Bool) (m : ℝ) (gt : String),
        calculate_special_score c m gt =
          if c = true ∧ m ≤ 6 then m
          else 8 * (1 + Real.sqrt ((if c = true then 0 else m) / 12500)))
    ∧ calculate_special_score true 6 "NoBordle" = 6
    ∧ calculate_special_score true 7 "NoBordle" = 8
    ∧ calculate_special_score false 12500 "ImpossiBordle" = 16 := by
  refine ⟨fun c m gt => rfl, ?_, ?_, ?_⟩
  · norm_num [calculate_special_score]
  · norm_num [calculate_special_score]
  · have h1 : (12500 : ℝ) / 12500 = 1 := by norm_num
    norm_num [calculate_special_score, h1]

/-- The range gate used by `validate_score_input`, rephrased: the boolean
rejection condition holds iff the type-and-range condition fails. -/
theorem bool_gate (b : Bool) (v lo hi : ℚ) :
    ((!b || decide (v < lo) || decide (hi < v)) = true) ↔
      ¬(b = true ∧ lo ≤ v ∧ v ≤ hi) := by
  cases b
  · simp
  · simp only [Bool.not_true, Bool.false_or, Bool.or_eq_true, decide_eq_true_eq, true_and,
      not_and, not_le]
    constructor
    · rintro (h | h) hle
      · exact absurd hle (not_le.2 h)
      · exact h
    · intro h
      rcases le_or_lt lo v with hle | hlt
      · exact Or.inr (h hle)
      · exact Or.inl hlt

/-- The boolean rejection `if` of a standard-game gate, rewritten as an `if`
on the type-and-range condition. -/
theorem gate_ite (b : Bool) (v lo hi : ℚ) (ok err : Bool × String) :
    (if (!b || decide (v < lo) || decide (hi < v)) = true then err else ok) =
      if b = true ∧ lo ≤ v ∧ v ≤ hi then ok else err := by
  by_cases hP : b = true ∧ lo ≤ v ∧ v ≤ hi
  · rw [if_neg (fun hc => (bool_gate b v lo hi).1 hc hP), if_pos hP]
  · rw [if_pos ((bool_gate b v lo hi).2 hP), if_neg hP]

/-- Claim C9: `validate_score_input` rejects unknown games with the
"Unknown game" reason, always passes special-kind games, and gates each
standard-kind game by its inclusive range (Worldle/Globle/Countryle 1–100,
Travle −1–100, Geogrid integer 0–900), failing with a message naming the game
and its range on an out-of-range, wrongly-typed or non-integer value. -/
theorem validate_score_input_spec :
    (∀ g s, GAMES.lookup g = none →
        validate_score_input g s = (false, "Unknown game: " ++ g))
    ∧ (∀ g info s, GAMES.lookup g = some info → info.type = "special" →
        validate_score_input g s = (true, ""))
    ∧ (∀ g s, (g = "Worldle" ∨ g = "Globle" ∨ g = "Countryle") →
        validate_score_input g s =
          if s.isNumber ∧ 1 ≤ s.toRat ∧ s.toRat ≤ 100 then (true, "")
          else (false, g ++ " score must be between 1 and 100"))
    ∧ (∀ s, validate_score_input "Travle" s =
          if s.isNumber ∧ -1 ≤ s.toRat ∧ s.toRat ≤ 100 then (true, "")
          else (false, "Travle score must be between -1 and 100"))
    ∧ (∀ s, validate_score_input "Geogrid" s =
          if s.isInt ∧ 0 ≤ s.toRat ∧ s.toRat ≤ 900 then (true, "")
          else (false, "Geogrid score must be an integer between 0 and 900")) := by
  refine ⟨?_, ?_, ?_, ?_, ?_⟩
  · intro g s h
    simp [validate_score_input, h]
  · intro g info s h hsp
    simp [validate_score_input, h, hsp]
  · rintro g s (rfl | rfl | rfl)
    · rw [show validate_score_input "Worldle" s =
            if (!s.isNumber || decide (s.toRat < 1) || decide ((100 : ℚ) < s.toRat)) = true
            then (false, "Worldle" ++ " score must be between 1 and 100")
            else (true, "") from rfl]
      exact gate_ite s.isNumber s.toRat 1 100 _ _
    · rw [show validate_score_input "Globle" s =
            if (!s.isNumber || decide (s.toRat < 1) || decide ((100 : ℚ) < s.toRat)) = true
            then (false, "Globle" ++ " score must be between 1 and 100")
            else (true, "") from rfl]
      exact gate_ite s.isNumber s.toRat 1 100 _ _
    · rw [show validate_score_input "Countryle" s =
            if (!s.isNumber || decide (s.toRat < 1) || decide ((100 : ℚ) < s.toRat)) = true
            then (false, "Countryle" ++ " score must be between 1 and 100")
            else (true, "") from rfl]
      exact gate_ite s.isNumber s.toRat 1 100 _ _
  · intro s
    rw [show validate_score_input "Travle" s =
          if (!s.isNumber || decide (s.toRat < -1) || decide ((100 : ℚ) < s.toRat)) = true
          then (false, "Travle" ++ " score must be between -1 and 100")
          else (true, "") from rfl]
    exact gate_ite s.isNumber s.toRat (-1) 100 _ _
  · intro s
    rw [show validate_score_input "Geogrid" s =
          if (!s.isInt || decide (s.toRat < 0) || decide ((900 : ℚ) < s.toRat)) = true
          then (false, "Geogrid" ++ " score must be an integer between 0 and 900")
          else (true, "") from rfl]
    exact gate_ite s.isInt s.toRat 0 900 _ _

/-- Concrete witness for the claim C9 theorem. -/
theorem validate_score_input_spec_witness :
    (GAMES.lookup "Quordle" = none
      ∧ validate_score_input "Quordle" (.int 3) = (false, "Unknown game: Quordle"))
    ∧ (GAMES.lookup "NoBordle" = some ⟨"special", 1.1⟩
      ∧ validate_score_input "NoBordle" (.str "anything") = (true, ""))
    ∧ validate_score_input "Worldle" (.int 101) =
        (if (PyVal.int 101).isNumber ∧ 1 ≤ (PyVal.int 101).toRat ∧ (PyVal.int 101).toRat ≤ 100
         then (true, "") else (false, "Worldle score must be between 1 and 100")) := by
  refine ⟨⟨rfl, ?_⟩, ⟨rfl, ?_⟩, ?_⟩
  · exact validate_score_input_spec.1 "Quordle" (.int 3) rfl
  · exact validate_score_input_spec.2.1 "NoBordle" ⟨"special", 1.1⟩ (.str "anything")
      rfl rfl
  · exact validate_score_input_spec.2.2.1 "Worldle" (.int 101) (Or.inl rfl)

/-- Claim C1 (code bug evidence): on a day where every player's raw score is
absent in every game, `calculate_daily_results` raises `IndexError` from
`winners[0]` instead of returning an empty ranking with no winner. -/
theorem daily_results_zero_participation_raises :
    calculate_daily_results [("Worldle", [none, none, none, none])] =
      .error .indexError := by
  rfl

/-- Claim C2 (code bug evidence): a malformed present value makes the whole
game's normalization raise `ValueError` (from the `np.array` float conversion)
instead of degrading only that player's value to `0.0`. -/
theorem normalize_malformed_raises :
    calculate_normalized_score [some (.num 2), some .mal, some (.num 4)] "Worldle" =
      .error .valueError := by
  rfl

theorem filterMap_id_map_some_num (scores : List ℝ) :
    (scores.map (fun v => some (RawVal.num v))).filterMap id = scores.map RawVal.num := by
  induction scores with
  | nil => rfl
  | cons a t ih => simp [ih]

theorem npArrayFloat_map_num (l : List ℝ) : npArrayFloat (l.map RawVal.num) = .ok l := by
  induction l with
  | nil => rfl
  | cons a t ih =>
    simp only [npArrayFloat, List.map_cons, List.mapM_cons] at *
    rw [ih]
    rfl

/-- Claim C3: on a fully numeric participating list for a non-Geogrid game,
the normalizer applies `normFormula` against the median of the sorted values
(average of the two middle values for even counts); the value equal to the
median normalizes to `0.0`, a zero median makes every value map to itself, and
a non-zero (in particular negative) median preserves the sign of
`v − median`. -/
theorem normalize_standard_spec (scores : List ℝ) (game : String)
    (hne : scores ≠ []) (hg : game ≠ "Geogrid") :
    calculate_normalized_score (scores.map (fun v => some (.num v))) game =
      .ok (scores.map (fun v => some (normFormula (npMedian scores) v)))
    ∧ npMedian scores =
        (if scores.length % 2 = 1 then
          (scores.insertionSort (· ≤ ·)).getD (scores.length / 2) 0
         else ((scores.insertionSort (· ≤ ·)).getD (scores.length / 2 - 1) 0
               + (scores.insertionSort (· ≤ ·)).getD (scores.length / 2) 0) / 2)
    ∧ normFormula (npMedian scores) (npMedian scores) = 0
    ∧ (npMedian scores = 0 → ∀ v, normFormula (npMedian scores) v = v)
    ∧ (npMedian scores ≠ 0 → ∀ v : ℝ,
        (0 < normFormula (npMedian scores) v ↔ npMedian scores < v)
        ∧ (normFormula (npMedian scores) v < 0 ↔ v < npMedian scores)) := by
  refine ⟨?_, rfl, ?_, ?_, ?_⟩
  · rcases scores with _ | ⟨a, t⟩
    · exact absurd rfl hne
    · simp only [calculate_normalized_score, filterMap_id_map_some_num]
      rw [if_neg (by simp [List.isEmpty]), if_neg hg]
      simp only [npArrayFloat_map_num, List.map_map]
      congr 1
      refine List.map_congr_left fun v _ => ?_
      simp [Function.comp, tryActual, hg, pyFloat]
  · unfold normFormula
    split_ifs with h
    · exact h
    · simp
  · intro h v
    simp [normFormula, h]
  · intro hm v
    have hd : 0 < |npMedian scores| ^ (0.4 : ℝ) :=
      Real.rpow_pos_of_pos (abs_pos.2 hm) _
    constructor
    · rw [normFormula, if_neg hm, lt_div_iff₀ hd, zero_mul, sub_pos]
    · rw [normFormula, if_neg hm, div_lt_iff₀ hd, zero_mul, sub_neg]

/-- Concrete witness for the claim C3 theorem, at raw scores `[2, 4, 6]` in a
standard game. -/
theorem normalize_standard_spec_witness :
    (([(2 : ℝ), 4, 6] ≠ []) ∧ "Worldle" ≠ "Geogrid")
    ∧ (calculate_normalized_score ([(2 : ℝ), 4, 6].map (fun v => some (.num v))) "Worldle" =
        .ok ([(2 : ℝ), 4, 6].map (fun v => some (normFormula (npMedian [2, 4, 6]) v)))
      ∧ normFormula (npMedian [(2 : ℝ), 4, 6]) (npMedian [(2 : ℝ), 4, 6]) = 0) := by
  have h := normalize_standard_spec [(2 : ℝ), 4, 6] "Worldle" (by simp) (by decide)
  exact ⟨⟨by simp, by decide⟩, h.1, h.2.2.1⟩

theorem filterMap_id_map_optmap {α β : Type} (f : α → β) (raw : List (Option α)) :
    (raw.map (Option.map f)).filterMap id = (raw.filterMap id).map f := by
  induction raw with
  | nil => rfl
  | cons a t ih => cases a <;> simp [ih]

theorem mapM_geogridDiv100_num (l : List ℝ) :
    (l.map RawVal.num).mapM geogridDiv100 = .ok (l.map (fun v => RawVal.num (v / 100))) := by
  induction l with
  | nil => rfl
  | cons a t ih =>
    simp only [List.map_cons, List.mapM_cons] at *
    rw [ih]
    rfl

/-- The zero-participation early return of `calculate_normalized_score`. -/
theorem normalize_empty (raw : List (Option RawVal)) (game : String)
    (hp : raw.filterMap id = []) :
    calculate_normalized_score raw game =
      .ok (raw.map (fun s => if s.isSome then some (0 : ℝ) else none)) := by
  simp only [calculate_normalized_score, hp]
  rfl

/-- `calculate_normalized_score` on a numeric input with at least one
participant, for a non-Geogrid game. -/
theorem normalize_numeric_std (raw : List (Option ℝ)) (game : String)
    (hg : game ≠ "Geogrid") (hne : raw.filterMap id ≠ []) :
    calculate_normalized_score (raw.map (Option.map RawVal.num)) game =
      .ok (raw.map (Option.map (normFormula (npMedian (raw.filterMap id))))) := by
  simp only [calculate_normalized_score, filterMap_id_map_optmap]
  rw [if_neg (by simpa using hne), if_neg hg]
  simp only [npArrayFloat_map_num, List.map_map]
  congr 1
  refine List.map_congr_left fun s _ => ?_
  cases s with
  | none => rfl
  | some v => simp [Function.comp, tryActual, hg, pyFloat]

/-- `calculate_normalized_score` on a numeric input with at least one
participant, for Geogrid: every participating value is divided by 100 before
the median and before the numerator. -/
theorem normalize_numeric_geogrid (raw : List (Option ℝ)) (hne : raw.filterMap id ≠ []) :
    calculate_normalized_score (raw.map (Option.map RawVal.num)) "Geogrid" =
      .ok (raw.map (Option.map (fun v =>
        normFormula (npMedian ((raw.filterMap id).map (fun x => x / 100))) (v / 100)))) := by
  simp only [calculate_normalized_score, filterMap_id_map_optmap]
  rw [if_neg (by simpa using hne), if_pos trivial]
  simp only [mapM_geogridDiv100_num]
  rw [show (raw.filterMap id).map (fun v => RawVal.num (v / 100)) =
      ((raw.filterMap id).map (fun v : ℝ => v / 100)).map RawVal.num from by
        simp [List.map_map, Function.comp]]
  simp only [npArrayFloat_map_num]
  simp only [List.map_map]
  congr 1
  refine List.map_congr_left fun s _ => ?_
  cases s with
  | none => rfl
  | some v => simp [Function.comp, tryActual]

/-- Claim C6: for Geogrid every participating raw value is divided by 100
before both the median computation and the individual numerator, so a Geogrid
run on numeric raw values coincides with an unscaled standard-game run on the
values divided by 100; in particular `[300, 600, 900]` under Geogrid equals
`[3, 6, 9]` under a standard game. -/
theorem geogrid_rescale_spec :
    (∀ raw : List (Option ℝ),
        calculate_normalized_score (raw.map (Option.map RawVal.num)) "Geogrid" =
          calculate_normalized_score
            (raw.map (Option.map (fun v => RawVal.num (v / 100)))) "Worldle")
    ∧ calculate_normalized_score
        [some (.num 300), some (.num 600), some (.num 900)] "Geogrid" =
      calculate_normalized_score [some (.num 3), some (.num 6), some (.num 9)] "Worldle" := by
  have main : ∀ raw : List (Option ℝ),
      calculate_normalized_score (raw.map (Option.map RawVal.num)) "Geogrid" =
        calculate_normalized_score
          (raw.map (Option.map (fun v => RawVal.num (v / 100)))) "Worldle" := by
    intro raw
    by_cases hp : raw.filterMap id = []
    · rw [normalize_empty _ "Geogrid" (by rw [filterMap_id_map_optmap, hp]; rfl),
        normalize_empty _ "Worldle" (by rw [filterMap_id_map_optmap, hp]; rfl)]
      simp only [List.map_map]
      congr 1
      refine List.map_congr_left fun s _ => ?_
      cases s <;> rfl
    · have hraw' : raw.map (Option.map (fun v => RawVal.num (v / 100))) =
          (raw.map (Option.map (fun v : ℝ => v / 100))).map (Option.map RawVal.num) := by
        simp only [List.map_map]
        refine List.map_congr_left fun s _ => ?_
        cases s <;> rfl
      have hfm : (raw.map (Option.map (fun v : ℝ => v / 100))).filterMap id =
          (raw.filterMap id).map (fun v : ℝ => v / 100) := filterMap_id_map_optmap _ raw
      have hne' : (raw.map (Option.map (fun v : ℝ => v / 100))).filterMap id ≠ [] := by
        rw [hfm]
        simpa using hp
      rw [normalize_numeric_geogrid raw hp, hraw',
        normalize_numeric_std (raw.map (Option.map (fun v : ℝ => v / 100))) "Worldle"
          (by decide) hne', hfm]
      simp only [List.map_map]
      congr 1
      refine List.map_congr_left fun s _ => ?_
      cases s <;> rfl
  refine ⟨main, ?_⟩
  have h := main [some 300, some 600, some 900]
  norm_num at h
  exact h

theorem filterMap_id_map_zeroFn (raw : List (Option RawVal)) :
    (raw.map (fun s => if s.isSome then some (0 : ℝ) else none)).filterMap id =
      (raw.filterMap id).map (fun _ => (0 : ℝ)) := by
  induction raw with
  | nil => rfl
  | cons a t ih => cases a <;> simp [ih]

theorem map_normBody (raw : List (Option RawVal)) (game : String) (m : ℝ) :
    raw.map (fun score =>
      match score with
      | none => none
      | some v =>
        match tryActual game v with
        | .error _ => some (0 : ℝ)
        | .ok a => some (normFormula m a)) =
    raw.map (Option.map (fun v =>
      match tryActual game v with
      | .error _ => (0 : ℝ)
      | .ok a => normFormula m a)) := by
  refine List.map_congr_left fun s _ => ?_
  cases s with
  | none => rfl
  | some v => cases h : tryActual game v <;> simp [h]

/-- Whatever `calculate_normalized_score` successfully returns is an
elementwise image of the input: each present slot stays present and each
absent slot stays absent, in place. -/
theorem normalize_shape (raw : List (Option RawVal)) (game : String)
    (out : List (Option ℝ)) (h : calculate_normalized_score raw game = .ok out) :
    ∃ f : RawVal → ℝ, out = raw.map (Option.map f) := by
  rw [calculate_normalized_score] at h
  by_cases hp : (raw.filterMap id).isEmpty
  · rw [if_pos hp] at h
    refine ⟨fun _ => 0, ?_⟩
    cases h
    refine List.map_congr_left fun s _ => ?_
    cases s <;> rfl
  · rw [if_neg hp] at h
    repeat' split at h
    all_goals first
      | (cases h
         exact ⟨_, map_normBody raw game _⟩)
      | cases h

/-- `processGames` stores exactly the submitted games that are in the
registry, in submission order, with their raw lists unchanged. -/
theorem processGames_raw_tables (sd : List (String × List (Option RawVal)))
    (totals : List ℝ) (t : DayTables) (h : processGames sd totals = .ok t) :
    t.raw_scores = sd.filter (fun e => (GAMES.lookup e.1).isSome) := by
  induction sd generalizing totals t with
  | nil =>
    simp only [processGames] at h
    cases h
    rfl
  | cons e rest ih =>
    obtain ⟨game, raw⟩ := e
    simp only [processGames] at h
    by_cases hg : (GAMES.lookup game).isSome
    · rw [if_pos hg] at h
      split at h
      · cases h
      · split at h
        · cases h
        · rename_i t2 heq2
          cases h
          simp [List.filter_cons, hg, ih _ _ heq2]
    · rw [if_neg hg] at h
      have := ih _ _ h
      simp only [List.filter_cons]
      rw [if_neg (by simpa using hg)]
      exact this

/-- The value-depends-only-on-participants core of `calculate_normalized_score`:
with equal participating sequences, the two runs have the same error/success
status and the same present outputs. -/
theorem normalize_depends_on_participating (raw₁ raw₂ : List (Option RawVal))
    (game : String) (h : raw₁.filterMap id = raw₂.filterMap id) :
    (calculate_normalized_score raw₁ game).map (fun l => l.filterMap id) =
      (calculate_normalized_score raw₂ game).map (fun l => l.filterMap id) := by
  rw [calculate_normalized_score, calculate_normalized_score, h]
  by_cases hp : (raw₂.filterMap id).isEmpty
  · rw [if_pos hp, if_pos hp]
    simp only [Except.map]
    rw [filterMap_id_map_zeroFn, filterMap_id_map_zeroFn, h]
  · rw [if_neg hp, if_neg hp]
    rcases he : (if game = "Geogrid" then (raw₂.filterMap id).mapM geogridDiv100
        else .ok (raw₂.filterMap id)) with e | rescaled
    · rfl
    · rcases ha : npArrayFloat rescaled with e | arr
      · simp only [Except.map, ha]
      · simp only [Except.map, ha]
        rw [map_normBody, map_normBody, filterMap_id_map_optmap, filterMap_id_map_optmap, h]

instance : IsTotal (String × ℝ) (fun a b => a.2 ≤ b.2) :=
  ⟨fun a b => le_total a.2 b.2⟩

instance : IsTrans (String × ℝ) (fun a b => a.2 ≤ b.2) :=
  ⟨fun _ _ _ hab hbc => le_trans hab hbc⟩

theorem pairwise_orderedInsert {α : Type} (S : α → α → Prop) (r : α → α → Prop)
    [DecidableRel r] (hSr : ∀ x y, ¬ r x y → S y x) (a : α) :
    ∀ l : List α, (∀ b ∈ l, S a b) → l.Pairwise S → (l.orderedInsert r a).Pairwise S
  | [], _, _ => List.pairwise_singleton S a
  | b :: l, ha, hl => by
    rw [List.orderedInsert]
    by_cases hr : r a b
    · rw [if_pos hr]
      exact List.Pairwise.cons ha hl
    · rw [if_neg hr]
      refine List.Pairwise.cons ?_
        (pairwise_orderedInsert S r hSr a l
          (fun c hc => ha c (List.mem_cons_of_mem _ hc)) hl.of_cons)
      intro c hc
      rcases (List.mem_orderedInsert r).1 hc with rfl | hc
      · exact hSr _ b hr
      · exact (List.pairwise_cons.1 hl).1 c hc

theorem pairwise_insertionSort {α : Type} (S : α → α → Prop) (r : α → α → Prop)
    [DecidableRel r] (hSr : ∀ x y, ¬ r x y → S y x) :
    ∀ l : List α, l.Pairwise S → (l.insertionSort r).Pairwise S
  | [], _ => List.Pairwise.nil
  | a :: l, hl => by
    rw [List.insertionSort]
    refine pairwise_orderedInsert S r hSr a _ ?_
      (pairwise_insertionSort S r hSr l hl.of_cons)
    intro b hb
    exact (List.pairwise_cons.1 hl).1 b ((List.mem_insertionSort r).1 hb)

theorem pairwise_filterMap_of {α β : Type} (f : α → Option β) (R : α → α → Prop)
    (S : β → β → Prop)
    (hf : ∀ a b, R a b → ∀ c, f a = some c → ∀ d, f b = some d → S c d) :
    ∀ l : List α, l.Pairwise R → (l.filterMap f).Pairwise S
  | [], _ => List.Pairwise.nil
  | a :: l, hl => by
    cases hfa : f a with
    | none =>
      simp only [List.filterMap_cons, hfa]
      exact pairwise_filterMap_of f R S hf l hl.of_cons
    | some c =>
      simp only [List.filterMap_cons, hfa]
      refine List.Pairwise.cons ?_ (pairwise_filterMap_of f R S hf l hl.of_cons)
      intro d hd
      obtain ⟨b, hb, hfb⟩ := List.mem_filterMap.1 hd
      exact hf a b ((List.pairwise_cons.1 hl).1 b hb) c hfa d hfb

/-- The participating-players list is built in roster order: among its
entries, roster indices strictly increase. -/
theorem participatingTotals_roster_order (raw_tables : List (String × List (Option RawVal)))
    (totals : List ℝ) :
    (participatingTotals raw_tables totals).Pairwise
      (fun a b => PLAYERS.indexOf a.1 < PLAYERS.indexOf b.1) := by
  refine pairwise_filterMap_of _
    (fun ip jp => PLAYERS.indexOf ip.2 < PLAYERS.indexOf jp.2) _ ?_ PLAYERS.enum (by decide)
  intro a b hR c hc d hd
  by_cases hca : raw_tables.any (fun g => (g.2.getD a.1 none).isSome)
  · rw [if_pos hca] at hc
    by_cases hcb : raw_tables.any (fun g => (g.2.getD b.1 none).isSome)
    · rw [if_pos hcb] at hd
      cases hc
      cases hd
      exact hR
    · rw [if_neg hcb] at hd
      cases hd
  · rw [if_neg hca] at hc
    cases hc

/-- Any entry of the participating-players list names the roster player at
some index with a present value in some stored game, paired with that index's
total. -/
theorem participatingTotals_mem (raw_tables : List (String × List (Option RawVal)))
    (totals : List ℝ) (pt : String × ℝ)
    (h : pt ∈ participatingTotals raw_tables totals) :
    ∃ i, i < PLAYERS.length ∧ pt.1 = PLAYERS.getD i ""
      ∧ pt.2 = totals.getD i 0
      ∧ raw_tables.any (fun g => (g.2.getD i none).isSome) = true := by
  obtain ⟨ip, hip, hf⟩ := List.mem_filterMap.1 h
  by_cases hc : raw_tables.any (fun g => (g.2.getD ip.1 none).isSome)
  · rw [if_pos hc] at hf
    cases hf
    refine ⟨ip.1, ?_, ?_, rfl, hc⟩
    · exact (by decide : ∀ jp ∈ PLAYERS.enum, jp.1 < PLAYERS.length) ip hip
    · exact (by decide : ∀ jp ∈ PLAYERS.enum, jp.2 = PLAYERS.getD jp.1 "") ip hip
  · rw [if_neg hc] at hf
    cases hf

/-- Destructuring of a successful `calculate_daily_results` run. -/
theorem daily_results_ok (sd : List (String × List (Option RawVal))) (r : DailyResults)
    (h : calculate_daily_results sd = .ok r) :
    ∃ (t : DayTables) (lowest : String × ℝ),
      processGames sd (List.replicate PLAYERS.length 0) = .ok t
      ∧ r.raw_scores = t.raw_scores
      ∧ r.total_scores = t.total_scores
      ∧ r.rankings = (participatingTotals t.raw_scores t.total_scores).insertionSort
          (fun a b => a.2 ≤ b.2)
      ∧ r.rankings.head? = some lowest
      ∧ r.winners = (r.rankings.filter (fun pt => pt.2 = lowest.2)).map Prod.fst
      ∧ r.winners.head? = some r.winner
      ∧ r.is_tie = (r.winners.length != 1) := by
  rw [calculate_daily_results] at h
  split at h
  · cases h
  · rename_i t hp
    simp only [] at h
    generalize hS : (participatingTotals t.raw_scores t.total_scores).insertionSort
      (fun a b => a.2 ≤ b.2) = S at h
    rcases hlow : S.head? with _ | lowest
    · rw [hlow] at h
      simp only [] at h
      cases h
    · rw [hlow] at h
      simp only [] at h
      rcases hws : (S.filter (fun pt => pt.2 = lowest.2)).map Prod.fst with _ | ⟨w, ws⟩
      · rw [hws] at h
        cases h
      · rw [hws] at h
        cases h
        exact ⟨t, lowest, hp, rfl, rfl, hS.symm, hlow, hws.symm, rfl, rfl⟩

theorem head?_min_of_sorted (l : List (String × ℝ)) (lowest : String × ℝ)
    (hs : l.Sorted (fun a b => a.2 ≤ b.2)) (hh : l.head? = some lowest) :
    ∀ pt ∈ l, lowest.2 ≤ pt.2 := by
  cases l with
  | nil => cases hh
  | cons x xs =>
    cases hh
    intro pt hpt
    rcases List.mem_cons.1 hpt with rfl | hpt
    · exact le_refl _
    · exact List.rel_of_sorted_cons hs pt hpt

theorem players_getD_inj : ∀ i < PLAYERS.length, ∀ j < PLAYERS.length,
    PLAYERS.getD i "" = PLAYERS.getD j "" → i = j := by decide

/-- Claim C5: on a successful day (which the code reaches exactly when at
least one player participated), the winner-set is exactly the participating
players whose total equals the minimum total under exact equality, and
`is_tie` is false iff that set is a singleton and true iff it has more than
one member. -/
theorem winners_are_min_total (sd : List (String × List (Option RawVal)))
    (r : DailyResults) (h : calculate_daily_results sd = .ok r) :
    r.rankings ≠ []
    ∧ ∃ m : ℝ, m ∈ r.rankings.map Prod.snd
      ∧ (∀ pt ∈ r.rankings, m ≤ pt.2)
      ∧ (∀ p : String, p ∈ r.winners ↔ ∃ pt ∈ r.rankings, pt.1 = p ∧ pt.2 = m)
      ∧ (r.is_tie = false ↔ r.winners.length = 1)
      ∧ (r.is_tie = true ↔ 1 < r.winners.length) := by
  obtain ⟨t, lowest, _, _, _, hS, hlow, hws, hwin, htie⟩ := daily_results_ok sd r h
  have hsorted : r.rankings.Sorted (fun a b => a.2 ≤ b.2) := by
    rw [hS]
    exact List.sorted_insertionSort _ _
  have hlmem : lowest ∈ r.rankings := List.mem_of_mem_head? (by rw [hlow]; rfl)
  have hne : r.rankings ≠ [] := by
    intro hnil
    rw [hnil] at hlow
    cases hlow
  have hmin : ∀ pt ∈ r.rankings, lowest.2 ≤ pt.2 :=
    head?_min_of_sorted _ _ hsorted hlow
  have hwne : 0 < r.winners.length := by
    cases hwl : r.winners with
    | nil => rw [hwl] at hwin; cases hwin
    | cons a l => simp [hwl]
  refine ⟨hne, lowest.2, List.mem_map.2 ⟨lowest, hlmem, rfl⟩, hmin, ?_, ?_, ?_⟩
  · intro p
    rw [hws]
    simp only [List.mem_map, List.mem_filter, decide_eq_true_eq]
    constructor
    · rintro ⟨pt, ⟨hmem, heq⟩, rfl⟩
      exact ⟨pt, hmem, rfl, heq⟩
    · rintro ⟨pt, hmem, rfl, heq⟩
      exact ⟨pt, ⟨hmem, heq⟩, rfl⟩
  · rw [htie]
    simp [bne_eq_false_iff_eq]
  · rw [htie]
    simp only [bne_iff_ne, ne_eq]
    omega

/-- Claim C8: the ranking is sorted ascending by total, players with equal
totals appear in roster order (strictly increasing roster indices), and
winner-set membership is characterised purely by having a minimal total among
the ranked participants — independent of the tie-break order. -/
theorem ranking_sorted_stable (sd : List (String × List (Option RawVal)))
    (r : DailyResults) (h : calculate_daily_results sd = .ok r) :
    r.rankings.Pairwise (fun a b => a.2 ≤ b.2)
    ∧ r.rankings.Pairwise
        (fun a b => a.2 = b.2 → PLAYERS.indexOf a.1 < PLAYERS.indexOf b.1)
    ∧ (∀ p : String,
        p ∈ r.winners ↔ ∃ pt ∈ r.rankings, pt.1 = p ∧ ∀ qt ∈ r.rankings, pt.2 ≤ qt.2) := by
  obtain ⟨t, lowest, _, _, _, hS, hlow, hws, hwin, htie⟩ := daily_results_ok sd r h
  have hsorted : r.rankings.Sorted (fun a b => a.2 ≤ b.2) := by
    rw [hS]
    exact List.sorted_insertionSort _ _
  have hmin : ∀ pt ∈ r.rankings, lowest.2 ≤ pt.2 :=
    head?_min_of_sorted _ _ hsorted hlow
  refine ⟨hsorted, ?_, ?_⟩
  · rw [hS]
    refine pairwise_insertionSort _ (fun a b : String × ℝ => a.2 ≤ b.2) ?_ _ ?_
    · intro x y hxy heq
      exact absurd (le_of_eq heq.symm) hxy
    · refine List.Pairwise.imp ?_ (participatingTotals_roster_order t.raw_scores t.total_scores)
      intro a b hij _
      exact hij
  · intro p
    rw [hws]
    simp only [List.mem_map, List.mem_filter, decide_eq_true_eq]
    constructor
    · rintro ⟨pt, ⟨hmem, heq⟩, rfl⟩
      exact ⟨pt, hmem, rfl, fun qt hqt => heq ▸ hmin qt hqt⟩
    · rintro ⟨pt, hmem, rfl, hminpt⟩
      have hlmem : lowest ∈ r.rankings := List.mem_of_mem_head? (by rw [hlow]; rfl)
      exact ⟨pt, ⟨hmem, le_antisymm (hminpt lowest hlmem) (hmin pt hmem)⟩, rfl⟩

/-- Claim C10: whenever the winner-set is non-empty (every successful day),
the singular `winner` field is the first element of `winners` — the tied
winner earliest in roster order — hence always a member of `winners`. -/
theorem winner_first_of_winners (sd : List (String × List (Option RawVal)))
    (r : DailyResults) (h : calculate_daily_results sd = .ok r) :
    r.winners.head? = some r.winner
    ∧ r.winner ∈ r.winners
    ∧ ∀ p ∈ r.winners, PLAYERS.indexOf r.winner ≤ PLAYERS.indexOf p := by
  obtain ⟨t, lowest, _, _, _, hS, hlow, hws, hwin, htie⟩ := daily_results_ok sd r h
  have hstable : r.rankings.Pairwise
      (fun a b => a.2 = b.2 → PLAYERS.indexOf a.1 < PLAYERS.indexOf b.1) := by
    rw [hS]
    refine pairwise_insertionSort _ (fun a b : String × ℝ => a.2 ≤ b.2) ?_ _ ?_
    · intro x y hxy heq
      exact absurd (le_of_eq heq.symm) hxy
    · refine List.Pairwise.imp ?_ (participatingTotals_roster_order t.raw_scores t.total_scores)
      intro a b hij _
      exact hij
  have hfilter : (r.rankings.filter (fun pt => pt.2 = lowest.2)).Pairwise
      (fun a b => PLAYERS.indexOf a.1 < PLAYERS.indexOf b.1) := by
    have hpw := hstable.filter (fun pt => decide (pt.2 = lowest.2))
    refine List.Pairwise.imp_of_mem ?_ hpw
    intro a b ha hb hab
    have ha2 := (List.mem_filter.1 ha).2
    have hb2 := (List.mem_filter.1 hb).2
    simp only [decide_eq_true_eq] at ha2 hb2
    exact hab (ha2.trans hb2.symm)
  have hwpw : r.winners.Pairwise
      (fun x y => PLAYERS.indexOf x < PLAYERS.indexOf y) := by
    rw [hws]
    exact hfilter.map Prod.fst (fun _ _ hab => hab)
  refine ⟨hwin, List.mem_of_mem_head? (by rw [hwin]; rfl), ?_⟩
  intro p hp
  cases hwl : r.winners with
  | nil =>
    rw [hwl] at hp
    cases hp
  | cons w ws =>
    rw [hwl] at hwin hp hwpw
    cases hwin
    rcases List.mem_cons.1 hp with rfl | hp
    · exact le_refl _
    · exact le_of_lt ((List.pairwise_cons.1 hwpw).1 p hp)

/-- Claim C7: absence propagates through every stage — the normalizer
preserves length, order and absence positions; the normalizer's outcome (and
hence the median) depends only on the sequence of present values; weighting
maps absent to absent elementwise; and a player with no present value in any
stored game appears in neither the ranking nor the winner-set. -/
theorem absence_propagation (sd : List (String × List (Option RawVal))) :
    (∀ (raw : List (Option RawVal)) (game : String) (out : List (Option ℝ)),
        calculate_normalized_score raw game = .ok out →
          out.map Option.isSome = raw.map Option.isSome)
    ∧ (∀ (raw₁ raw₂ : List (Option RawVal)) (game : String),
        raw₁.filterMap id = raw₂.filterMap id →
          (calculate_normalized_score raw₁ game).map (fun l => l.filterMap id) =
            (calculate_normalized_score raw₂ game).map (fun l => l.filterMap id))
    ∧ (∀ (ns : List (Option ℝ)) (game : String),
        (calculate_weighted_scores ns game).map Option.isSome = ns.map Option.isSome)
    ∧ (∀ (i : ℕ) (r : DailyResults), i < PLAYERS.length →
        (∀ e ∈ sd, e.2.getD i none = none) →
        calculate_daily_results sd = .ok r →
          (∀ pt ∈ r.rankings, pt.1 ≠ PLAYERS.getD i "")
          ∧ PLAYERS.getD i "" ∉ r.winners) := by
  refine ⟨?_, normalize_depends_on_participating, ?_, ?_⟩
  · intro raw game out h
    obtain ⟨f, rfl⟩ := normalize_shape raw game out h
    simp only [List.map_map]
    refine List.map_congr_left fun s _ => ?_
    cases s <;> rfl
  · intro ns game
    simp only [calculate_weighted_scores, List.map_map]
    refine List.map_congr_left fun s _ => ?_
    cases s <;> rfl
  · intro i r hi habs h
    obtain ⟨t, lowest, hp, hraw, htot, hS, hlow, hws, hwin, htie⟩ := daily_results_ok sd r h
    have hrank : ∀ pt ∈ r.rankings, pt.1 ≠ PLAYERS.getD i "" := by
      intro pt hmem hname
      have hmem' : pt ∈ participatingTotals t.raw_scores t.total_scores := by
        rw [hS] at hmem
        exact (List.mem_insertionSort _).1 hmem
      obtain ⟨j, hj, hname', _, hany⟩ := participatingTotals_mem _ _ pt hmem'
      have hij : j = i := players_getD_inj j hj i hi (hname'.symm.trans hname)
      rw [hij] at hany
      obtain ⟨g, hg, hsome⟩ := List.any_eq_true.1 hany
      have hgsd : g ∈ sd := by
        have := processGames_raw_tables sd _ t hp
        rw [this] at hg
        exact (List.mem_filter.1 hg).1
      rw [habs g hgsd] at hsome
      cases hsome
    refine ⟨hrank, ?_⟩
    intro hmem
    rw [hws] at hmem
    obtain ⟨pt, hpt, hname⟩ := List.mem_map.1 hmem
    exact hrank pt (List.mem_filter.1 hpt).1 hname

theorem eval_day1_median : npMedian [(1 : ℝ), -1] = 0 := by
  norm_num [npMedian, List.insertionSort, List.orderedInsert]

theorem eval_day1_norm :
    calculate_normalized_score [some (.num 1), some (.num (-1)), none, none] "Worldle" =
      .ok [some 1, some (-1), none, none] := by
  have h := normalize_numeric_std [some (1 : ℝ), some (-1), none, none] "Worldle"
    (by decide) (by simp)
  simpa [eval_day1_median, normFormula] using h

theorem eval_day1_weighted :
    calculate_weighted_scores [some 1, some (-1), none, none] "Worldle" =
      [some 1.2, some (-1.2), none, none] := by
  have hw : (((GAMES.lookup "Worldle").map GameInfo.weight).getD 0 : ℚ) = 1.2 := rfl
  simp only [calculate_weighted_scores, hw]
  norm_num

theorem eval_day1_proc :
    processGames [("Worldle", [some (.num 1), some (.num (-1)), none, none])]
      (List.replicate PLAYERS.length 0) =
    .ok ⟨[("Worldle", [some (.num 1), some (.num (-1)), none, none])],
         [("Worldle", [some 1, some (-1), none, none])],
         [("Worldle", [some 1.2, some (-1.2), none, none])],
         [1.2, -1.2, 0, 0]⟩ := by
  have hlk : (GAMES.lookup "Worldle").isSome = true := rfl
  rw [processGames, if_pos hlk, eval_day1_norm]
  simp only [eval_day1_weighted, processGames]
  norm_num [addWeighted, PLAYERS]

/-- End-to-end evaluation of one concrete day: two participants, Cole wins
outright. -/
theorem eval_day1 :
    calculate_daily_results [("Worldle", [some (.num 1), some (.num (-1)), none, none])] =
      .ok { players := PLAYERS
            raw_scores := [("Worldle", [some (.num 1), some (.num (-1)), none, none])]
            normalized_unweighted := [("Worldle", [some 1, some (-1), none, none])]
            normalized_weighted := [("Worldle", [some 1.2, some (-1.2), none, none])]
            total_scores := [1.2, -1.2, 0, 0]
            rankings := [("Cole", -1.2), ("Anthony", 1.2)]
            winner := "Cole"
            winners := ["Cole"]
            is_tie := false } := by
  have hpt : participatingTotals
      [("Worldle", [some (.num 1), some (.num (-1)), none, none])] [1.2, -1.2, 0, 0] =
      [("Anthony", 1.2), ("Cole", -1.2)] := by
    simp [participatingTotals, PLAYERS, List.enum, List.enumFrom]
  have hsort : ([("Anthony", (1.2 : ℝ)), ("Cole", -1.2)].insertionSort
      (fun a b => a.2 ≤ b.2)) = [("Cole", -1.2), ("Anthony", 1.2)] := by
    norm_num [List.insertionSort, List.orderedInsert]
  rw [calculate_daily_results, eval_day1_proc]
  simp only [hpt, hsort]
  norm_num [List.filter]

/-- Concrete witness for the claim C5 theorem. -/
theorem winners_are_min_total_witness :
    (calculate_daily_results [("Worldle", [some (.num 1), some (.num (-1)), none, none])] =
      .ok { players := PLAYERS
            raw_scores := [("Worldle", [some (.num 1), some (.num (-1)), none, none])]
            normalized_unweighted := [("Worldle", [some 1, some (-1), none, none])]
            normalized_weighted := [("Worldle", [some 1.2, some (-1.2), none, none])]
            total_scores := [1.2, -1.2, 0, 0]
            rankings := [("Cole", -1.2), ("Anthony", 1.2)]
            winner := "Cole"
            winners := ["Cole"]
            is_tie := false })
    ∧ (([("Cole", (-1.2 : ℝ)), ("Anthony", 1.2)] : List (String × ℝ)) ≠ []
      ∧ ∃ m : ℝ, m ∈ ([("Cole", (-1.2 : ℝ)), ("Anthony", 1.2)] : List (String × ℝ)).map Prod.snd
        ∧ (∀ pt ∈ ([("Cole", (-1.2 : ℝ)), ("Anthony", 1.2)] : List (String × ℝ)), m ≤ pt.2)
        ∧ (∀ p : String, p ∈ (["Cole"] : List String) ↔
            ∃ pt ∈ ([("Cole", (-1.2 : ℝ)), ("Anthony", 1.2)] : List (String × ℝ)),
              pt.1 = p ∧ pt.2 = m)
        ∧ ((false : Bool) = false ↔ (["Cole"] : List String).length = 1)
        ∧ ((false : Bool) = true ↔ 1 < (["Cole"] : List String).length)) :=
  ⟨eval_day1, winners_are_min_total _ _ eval_day1⟩

/-- Concrete witness for the claim C8 theorem. -/
theorem ranking_sorted_stable_witness :
    (calculate_daily_results [("Worldle", [some (.num 1), some (.num (-1)), none, none])] =
      .ok { players := PLAYERS
            raw_scores := [("Worldle", [some (.num 1), some (.num (-1)), none, none])]
            normalized_unweighted := [("Worldle", [some 1, some (-1), none, none])]
            normalized_weighted := [("Worldle", [some 1.2, some (-1.2), none, none])]
            total_scores := [1.2, -1.2, 0, 0]
            rankings := [("Cole", -1.2), ("Anthony", 1.2)]
            winner := "Cole"
            winners := ["Cole"]
            is_tie := false })
    ∧ (([("Cole", (-1.2 : ℝ)), ("Anthony", 1.2)] : List (String × ℝ)).Pairwise
        (fun a b => a.2 ≤ b.2)
      ∧ ([("Cole", (-1.2 : ℝ)), ("Anthony", 1.2)] : List (String × ℝ)).Pairwise
          (fun a b => a.2 = b.2 → PLAYERS.indexOf a.1 < PLAYERS.indexOf b.1)
      ∧ (∀ p : String, p ∈ (["Cole"] : List String) ↔
          ∃ pt ∈ ([("Cole", (-1.2 : ℝ)), ("Anthony", 1.2)] : List (String × ℝ)),
            pt.1 = p ∧ ∀ qt ∈ ([("Cole", (-1.2 : ℝ)), ("Anthony", 1.2)] : List (String × ℝ)),
              pt.2 ≤ qt.2)) :=
  ⟨eval_day1, ranking_sorted_stable _ _ eval_day1⟩

/-- Concrete witness for the claim C10 theorem. -/
theorem winner_first_of_winners_witness :
    (calculate_daily_results [("Worldle", [some (.num 1), some (.num (-1)), none, none])] =
      .ok { players := PLAYERS
            raw_scores := [("Worldle", [some (.num 1), some (.num (-1)), none, none])]
            normalized_unweighted := [("Worldle", [some 1, some (-1), none, none])]
            normalized_weighted := [("Worldle", [some 1.2, some (-1.2), none, none])]
            total_scores := [1.2, -1.2, 0, 0]
            rankings := [("Cole", -1.2), ("Anthony", 1.2)]
            winner := "Cole"
            winners := ["Cole"]
            is_tie := false })
    ∧ ((["Cole"] : List String).head? = some "Cole"
      ∧ "Cole" ∈ (["Cole"] : List String)
      ∧ ∀ p ∈ (["Cole"] : List String), PLAYERS.indexOf "Cole" ≤ PLAYERS.indexOf p) :=
  ⟨eval_day1, winner_first_of_winners _ _ eval_day1⟩

/-- Concrete witness for the claim C7 theorem: Joseph (roster index 2) is
absent from every game of the day and appears in neither the ranking nor the
winner-set. -/
theorem absence_propagation_witness :
    ((2 < PLAYERS.length)
      ∧ (∀ e ∈ [("Worldle", [some (RawVal.num 1), some (RawVal.num (-1)), none, none])],
          e.2.getD 2 none = none)
      ∧ calculate_daily_results [("Worldle", [some (.num 1), some (.num (-1)), none, none])] =
          .ok { players := PLAYERS
                raw_scores := [("Worldle", [some (.num 1), some (.num (-1)), none, none])]
                normalized_unweighted := [("Worldle", [some 1, some (-1), none, none])]
                normalized_weighted := [("Worldle", [some 1.2, some (-1.2), none, none])]
                total_scores := [1.2, -1.2, 0, 0]
                rankings := [("Cole", -1.2), ("Anthony", 1.2)]
                winner := "Cole"
                winners := ["Cole"]
                is_tie := false })
    ∧ ((∀ pt ∈ ([("Cole", (-1.2 : ℝ)), ("Anthony", 1.2)] : List (String × ℝ)),
          pt.1 ≠ PLAYERS.getD 2 "")
      ∧ PLAYERS.getD 2 "" ∉ (["Cole"] : List String)) := by
  refine ⟨⟨by decide, ?_, eval_day1⟩, ?_⟩
  · intro e he
    simp only [List.mem_singleton] at he
    subst he
    rfl
  · exact (absence_propagation _).2.2.2 2 _ (by decide)
      (fun e he => by
        simp only [List.mem_singleton] at he
        subst he
        rfl) eval_day1

end Globros
